import Mathlib

/-!
Verification of the addons template-composition engine (package `addons`,
file `internal/pkg/addons/addons.go` of amazon-ecs-cli-v2).

The engine merges the YAML files found under a service's "addons/" directory
into a single CloudFormation template:

* `filterYAMLfiles` keeps only filenames whose extension is `.yaml` or `.yml`;
* `Template` reads each retained file, trims its content and routes it by its
  base name (`params` / `outputs` overwrite their slot, anything else is
  appended to the resources block followed by a newline);
* `validateNoMissingFiles` checks the three slots are populated and reports
  conventional filenames for the missing ones;
* the aggregated blocks are split into lines and handed to the external
  template parser bound to the fixed path `addons/cf.yml`.

The workspace reader and the template parser are external collaborators, so
they are modelled as function-valued fields; machine strings are modelled as
Lean `String`s (character sequences).
-/

/-- Go `unicode.IsSpace`: the White_Space property, i.e. the characters
`'\t'`, `'\n'`, `'\v'`, `'\f'`, `'\r'`, `' '`, U+0085, U+00A0, U+1680,
U+2000..U+200A, U+2028, U+2029, U+202F, U+205F, U+3000. -/
def goIsSpace (c : Char) : Bool :=
  c == ' ' || c == '\t' || c == '\n' || c == '\r' ||
  c == Char.ofNat 0x0b || c == Char.ofNat 0x0c ||
  c == Char.ofNat 0x85 || c == Char.ofNat 0xa0 ||
  c == Char.ofNat 0x1680 ||
  (0x2000 ≤ c.toNat && c.toNat ≤ 0x200a) ||
  c == Char.ofNat 0x2028 || c == Char.ofNat 0x2029 ||
  c == Char.ofNat 0x202f || c == Char.ofNat 0x205f ||
  c == Char.ofNat 0x3000

/-- Go `strings.TrimSpace`: remove leading and trailing white space. -/
def trimSpace (s : String) : String :=
  String.mk (((s.data.dropWhile goIsSpace).reverse.dropWhile goIsSpace).reverse)

/-- Helper for `filepathExt`: scan the reversed character list; stop with no
extension at a path separator or at the start, return from the rightmost dot
on. `acc` holds, in forward order, the characters already scanned (those that
follow the current one in the original string). -/
def extAux : List Char → List Char → String
  | _, [] => ""
  | acc, c :: rest =>
    if c == '/' then ""
    else if c == '.' then String.mk ('.' :: acc)
    else extAux (c :: acc) rest

/-- Go `filepath.Ext`: the suffix beginning at the final dot in the final
slash-separated element of the path; empty if there is no dot. -/
def filepathExt (f : String) : String :=
  extAux [] f.data.reverse

/-- Go `strings.TrimSuffix`: drop `suffix` from the end of `s` when present,
otherwise return `s` unchanged (`s[:len(s)-len(suffix)]`). -/
def trimSuffix (s suffix : String) : String :=
  if suffix.data.isSuffixOf s.data then
    String.mk (s.data.take (s.data.length - suffix.data.length))
  else s

/-- Helper for `splitLines`: cut the character list at every `'\n'`. `acc`
holds the current field reversed. -/
def splitLinesAux : List Char → List Char → List String
  | acc, [] => [String.mk acc.reverse]
  | acc, c :: rest =>
    if c == '\n' then String.mk acc.reverse :: splitLinesAux [] rest
    else splitLinesAux (c :: acc) rest

/-- Go `strings.Split(s, "\n")` (the only separator the code uses): the
fields between consecutive newlines; the empty string yields `[""]`. -/
def splitLines (s : String) : List String :=
  splitLinesAux [] s.data

/-- The constant `addonsTemplatePath` of the package. -/
def addonsTemplatePath : String := "addons/cf.yml"

/-- The constant `paramsFileWithoutExt`. -/
def paramsFileWithoutExt : String := "params"

/-- The constant `outputsFileWithoutExt`. -/
def outputsFileWithoutExt : String := "outputs"

/-- Helper `contains` of the package: linear membership scan. -/
def contains (arr : List String) (el : String) : Bool :=
  match arr with
  | [] => false
  | item :: rest => if item == el then true else contains rest el

/-- `filterYAMLfiles`: keep the filenames whose `filepath.Ext` is exactly
`.yaml` or `.yml`, preserving order. -/
def filterYAMLfiles (files : List String) : List String :=
  files.filter (fun f => contains [".yaml", ".yml"] (filepathExt f))

/-- The `addonFiles` accumulator of `Template`: a Go `map[string]string`
restricted to the only three keys the code ever writes (`params`, `outputs`,
`resources`); a key never written reads as `""`, exactly as in Go. -/
structure AddonFiles where
  params : String
  outputs : String
  resources : String
deriving DecidableEq, Repr

/-- The freshly made map `make(map[string]string)`: every key reads `""`. -/
def emptyAddonFiles : AddonFiles :=
  { params := "", outputs := "", resources := "" }

/-- Base name of a file: `strings.TrimSuffix(fileName, filepath.Ext(fileName))`
as computed by the `switch` in `Template`. -/
def baseName (fileName : String) : String :=
  trimSuffix fileName (filepathExt fileName)

/-- The body of `Template`'s per-file loop: trim the raw content and fold it
into the accumulator according to the file's base name (the `switch`
statement): `params` and `outputs` overwrite their slot, every other base
name appends the trimmed content plus a newline to the resources slot. -/
def processFile (m : AddonFiles) (fileName content : String) : AddonFiles :=
  let trimmedContent := trimSpace content
  let nameWithoutExt := baseName fileName
  if nameWithoutExt == paramsFileWithoutExt then
    { m with params := trimmedContent }
  else if nameWithoutExt == outputsFileWithoutExt then
    { m with outputs := trimmedContent }
  else
    { m with resources := m.resources ++ trimmedContent ++ "\n" }

/-- The error taxonomy of `Template`. `dirNotExist` embeds the
`ErrDirNotExist{SvcName, ParentErr}` struct; `readError` the
`fmt.Errorf("read addons file %s under service %s: %w", ...)` wrap;
`missingAddonsFiles` the validation error carrying the enumerated missing
entries; `renderError` an error of the external parser passed through. -/
inductive TemplateError where
  | dirNotExist (svcName : String) (parentErr : String)
  | readError (fileName : String) (svcName : String) (err : String)
  | missingAddonsFiles (missingFiles : List String)
  | renderError (err : String)
deriving DecidableEq, Repr

/-- The generic entry reported when no resource file was found:
`at least one resource YAML file such as "s3-bucket.yaml"`. -/
def resourcesRequirement : String :=
  "at least one resource YAML file such as \"s3-bucket.yaml\""

/-- The `missingFiles` list accumulated by `validateNoMissingFiles`, in the
order the code appends: params, outputs, resources. -/
def missingFilesOf (f : AddonFiles) : List String :=
  (if f.params == "" then ["params.yaml"] else []) ++
  (if f.outputs == "" then ["outputs.yaml"] else []) ++
  (if f.resources == "" then [resourcesRequirement] else [])

/-- The message of the `validateNoMissingFiles` error:
`fmt.Errorf("addons directory has missing file(s): %s", strings.Join(...))`. -/
def missingFilesMessage (missingFiles : List String) : String :=
  "addons directory has missing file(s): " ++ String.intercalate ", " missingFiles

/-- `validateNoMissingFiles`: error exactly when the accumulated
`missingFiles` list is non-nil. -/
def validateNoMissingFiles (f : AddonFiles) : Option TemplateError :=
  let missingFiles := missingFilesOf f
  if missingFiles.isEmpty then none
  else some (.missingAddonsFiles missingFiles)

/-- The data context handed to `parser.Parse` (the anonymous struct literal
in `Template`). -/
structure ParseArgs where
  SvcName : String
  Parameters : List String
  Resources : List String
  Outputs : List String
deriving DecidableEq, Repr

/-- The `workspaceReader` interface: a directory listing and a per-file read,
each of which may fail (Go's `error` results are modelled as `Except` with a
string describing the underlying failure). -/
structure Workspace where
  ReadAddonsDir : String → Except String (List String)
  ReadAddonsFile : String → String → Except String String

/-- The `Addons` service object: the configured service name, the template
parser collaborator (`template.Parser.Parse`, an opaque render primitive) and
the workspace reader collaborator. -/
structure Addons where
  svcName : String
  parser : String → ParseArgs → Except String String
  ws : Workspace

/-- The read-and-fold loop of `Template`: for each filename in order, read it
through the workspace; a failed read aborts immediately with the wrapped
read error, a successful one is folded into the accumulator. -/
def aggregate (ws : Workspace) (svcName : String) :
    List String → AddonFiles → Except TemplateError AddonFiles
  | [], m => .ok m
  | fileName :: rest, m =>
    match ws.ReadAddonsFile svcName fileName with
    | .error e => .error (.readError fileName svcName e)
    | .ok content => aggregate ws svcName rest (processFile m fileName content)

/-- The struct literal passed to `parser.Parse`: each aggregated block is
trimmed and split on newlines. -/
def parseArgsOf (svcName : String) (f : AddonFiles) : ParseArgs :=
  { SvcName := svcName
  , Parameters := splitLines (trimSpace f.params)
  , Resources := splitLines (trimSpace f.resources)
  , Outputs := splitLines (trimSpace f.outputs) }

/-- `Template()`: list the addons directory (absent directory becomes
`ErrDirNotExist`), filter to YAML files, read and aggregate them (failed
reads abort), validate completeness, then render through the parser at the
fixed template path. Mirrors Go's `(string, error)` pair: the first component
is the returned text, the second the error (`none` = nil). -/
def Template (a : Addons) : String × Option TemplateError :=
  match a.ws.ReadAddonsDir a.svcName with
  | .error e => ("", some (.dirNotExist a.svcName e))
  | .ok fileNames =>
    match aggregate a.ws a.svcName (filterYAMLfiles fileNames) emptyAddonFiles with
    | .error e => ("", some e)
    | .ok addonFiles =>
      match validateNoMissingFiles addonFiles with
      | some e => ("", some e)
      | none =>
        match a.parser addonsTemplatePath (parseArgsOf a.svcName addonFiles) with
        | .error e => ("", some (.renderError e))
        | .ok content => (content, none)

/-! ### Pure instantiations of the collaborators, used to state and witness
the claims on concrete directories. -/

/-- A workspace whose directory listing returns the given names and whose
reads look the name up in the given association list. -/
def wsOfFiles (files : List (String × String)) : Workspace where
  ReadAddonsDir := fun _ => .ok (files.map Prod.fst)
  ReadAddonsFile := fun _ fileName =>
    match files.find? (fun p => p.1 == fileName) with
    | some p => .ok p.2
    | none => .error "file does not exist"

/-- A workspace with a fixed listing whose every read succeeds with
`read name`; used to state aggregation facts over arbitrary contents. -/
def listingWS (names : List String) (read : String → String) : Workspace where
  ReadAddonsDir := fun _ => .ok names
  ReadAddonsFile := fun _ fileName => .ok (read fileName)

/-- A parser that renders every request to a fixed string; stands in for a
successful external render primitive. -/
def okParser (out : String) : String → ParseArgs → Except String String :=
  fun _ _ => .ok out

/-- Classification used by the `switch`: a file contributes to Resources
exactly when its base name is neither `params` nor `outputs`. -/
def classifiesAsResource (fileName : String) : Bool :=
  baseName fileName != paramsFileWithoutExt &&
  baseName fileName != outputsFileWithoutExt

/-- Pure form of the aggregation loop when every read succeeds: fold
`processFile` over the filenames with contents given by `read`. -/
def foldAddons (read : String → String) (names : List String)
    (m : AddonFiles) : AddonFiles :=
  names.foldl (fun acc n => processFile acc n (read n)) m

/-- Classification used by the `switch`: a file populates the Parameters
slot exactly when its base name is `params`. -/
def classifiesAsParams (fileName : String) : Bool :=
  baseName fileName == paramsFileWithoutExt

/-- Classification used by the `switch`: a file populates the Outputs slot
exactly when its base name is `outputs`. -/
def classifiesAsOutputs (fileName : String) : Bool :=
  baseName fileName == outputsFileWithoutExt

/-- Concatenation of a list of strings in order. -/
def concatAll : List String → String
  | [] => ""
  | s :: rest => s ++ concatAll rest

/-- Modelled from the spec (section 4.2, Resources accumulate semantics):
the resources block expected by the spec's words — the trimmed content of
each Resources-classified file followed by a newline, joined in listing
order. Compared against the implementation's fold in the aggregation
theorems. -/
def specResourcesBlock (read : String → String) (names : List String) : String :=
  concatAll ((names.filter classifiesAsResource).map
    (fun n => trimSpace (read n) ++ "\n"))

/-- Modelled from the spec (section 4.2, overwrite semantics): an overwrite
slot holds the trimmed content of the last-seen file satisfying the
classification predicate, or the prior slot value when none was seen. -/
def specLastSlot (read : String → String) (p : String → Bool)
    (names : List String) (dflt : String) : String :=
  ((names.filter p).map (fun n => trimSpace (read n))).getLastD dflt

/-! ### Helper lemmas about the per-file routing and the aggregation fold. -/

lemma classifiesAsResource_of_params (n : String) (h : classifiesAsParams n = true) :
    classifiesAsResource n = false := by
  simp only [classifiesAsParams, beq_iff_eq] at h
  simp [classifiesAsResource, h]

lemma classifiesAsResource_of_outputs (n : String) (h : classifiesAsOutputs n = true) :
    classifiesAsResource n = false := by
  simp only [classifiesAsOutputs, beq_iff_eq] at h
  simp [classifiesAsResource, h, paramsFileWithoutExt, outputsFileWithoutExt]

lemma classifiesAsResource_of_neither (n : String)
    (hp : classifiesAsParams n = false) (ho : classifiesAsOutputs n = false) :
    classifiesAsResource n = true := by
  simp only [classifiesAsParams, beq_eq_false_iff_ne, ne_eq] at hp
  simp only [classifiesAsOutputs, beq_eq_false_iff_ne, ne_eq] at ho
  simp [classifiesAsResource, hp, ho]

lemma processFile_of_params (m : AddonFiles) (n c : String)
    (h : classifiesAsParams n = true) :
    processFile m n c = { m with params := trimSpace c } := by
  simp only [classifiesAsParams] at h
  simp [processFile, h]

lemma processFile_of_outputs (m : AddonFiles) (n c : String)
    (h : classifiesAsOutputs n = true) :
    processFile m n c = { m with outputs := trimSpace c } := by
  simp only [classifiesAsOutputs, beq_iff_eq] at h
  simp [processFile, h, paramsFileWithoutExt, outputsFileWithoutExt]

lemma processFile_of_resource (m : AddonFiles) (n c : String)
    (h : classifiesAsResource n = true) :
    processFile m n c = { m with resources := m.resources ++ trimSpace c ++ "\n" } := by
  simp only [classifiesAsResource, Bool.and_eq_true, bne_iff_ne, ne_eq] at h
  simp only [processFile, beq_iff_eq]
  rw [if_neg h.1, if_neg h.2]

lemma foldAddons_nil (read : String → String) (m : AddonFiles) :
    foldAddons read [] m = m := rfl

lemma foldAddons_cons (read : String → String) (n : String) (ns : List String)
    (m : AddonFiles) :
    foldAddons read (n :: ns) m = foldAddons read ns (processFile m n (read n)) := rfl

lemma foldAddons_resources (read : String → String) (ns : List String) :
    ∀ m : AddonFiles,
      (foldAddons read ns m).resources = m.resources ++ specResourcesBlock read ns := by
  induction ns with
  | nil =>
    intro m
    simp [foldAddons, specResourcesBlock, concatAll]
  | cons n ns ih =>
    intro m
    by_cases hp : classifiesAsParams n = true
    · rw [foldAddons_cons, processFile_of_params _ _ _ hp, ih]
      simp [specResourcesBlock, List.filter_cons, classifiesAsResource_of_params _ hp]
    · by_cases ho : classifiesAsOutputs n = true
      · rw [foldAddons_cons, processFile_of_outputs _ _ _ ho, ih]
        simp [specResourcesBlock, List.filter_cons, classifiesAsResource_of_outputs _ ho]
      · have hr := classifiesAsResource_of_neither n
          (Bool.eq_false_iff.mpr hp) (Bool.eq_false_iff.mpr ho)
        rw [foldAddons_cons, processFile_of_resource _ _ _ hr, ih]
        simp [specResourcesBlock, List.filter_cons, hr, concatAll, String.append_assoc]

lemma foldAddons_params (read : String → String) (ns : List String) :
    ∀ m : AddonFiles,
      (foldAddons read ns m).params = specLastSlot read classifiesAsParams ns m.params := by
  induction ns with
  | nil => intro m; simp [foldAddons, specLastSlot]
  | cons n ns ih =>
    intro m
    by_cases hp : classifiesAsParams n = true
    · rw [foldAddons_cons, processFile_of_params _ _ _ hp, ih]
      simp only [specLastSlot, List.filter_cons, hp, if_true, List.map_cons,
        List.getLastD_cons]
    · have hp' := Bool.eq_false_iff.mpr hp
      by_cases ho : classifiesAsOutputs n = true
      · rw [foldAddons_cons, processFile_of_outputs _ _ _ ho, ih]
        simp [specLastSlot, List.filter_cons, hp']
      · have hr := classifiesAsResource_of_neither n hp' (Bool.eq_false_iff.mpr ho)
        rw [foldAddons_cons, processFile_of_resource _ _ _ hr, ih]
        simp [specLastSlot, List.filter_cons, hp']

lemma foldAddons_outputs (read : String → String) (ns : List String) :
    ∀ m : AddonFiles,
      (foldAddons read ns m).outputs = specLastSlot read classifiesAsOutputs ns m.outputs := by
  induction ns with
  | nil => intro m; simp [foldAddons, specLastSlot]
  | cons n ns ih =>
    intro m
    by_cases ho : classifiesAsOutputs n = true
    · rw [foldAddons_cons, processFile_of_outputs _ _ _ ho, ih]
      simp only [specLastSlot, List.filter_cons, ho, if_true, List.map_cons,
        List.getLastD_cons]
    · have ho' := Bool.eq_false_iff.mpr ho
      by_cases hp : classifiesAsParams n = true
      · rw [foldAddons_cons, processFile_of_params _ _ _ hp, ih]
        simp [specLastSlot, List.filter_cons, ho']
      · have hr := classifiesAsResource_of_neither n (Bool.eq_false_iff.mpr hp) ho'
        rw [foldAddons_cons, processFile_of_resource _ _ _ hr, ih]
        simp [specLastSlot, List.filter_cons, ho']

lemma aggregate_listingWS (svc : String) (L : List String) (read : String → String)
    (ns : List String) :
    ∀ m : AddonFiles,
      aggregate (listingWS L read) svc ns m = .ok (foldAddons read ns m) := by
  induction ns with
  | nil => intro m; rfl
  | cons n ns ih =>
    intro m
    rw [foldAddons_cons]
    exact ih (processFile m n (read n))

lemma aggregate_error_shape (ws : Workspace) (svc : String) (ns : List String) :
    ∀ (m : AddonFiles) (er : TemplateError), aggregate ws svc ns m = .error er →
      ∃ f e, er = .readError f svc e ∧ f ∈ ns ∧ ws.ReadAddonsFile svc f = .error e := by
  induction ns with
  | nil => intro m er h; simp [aggregate] at h
  | cons n ns ih =>
    intro m er h
    rw [aggregate] at h
    cases hr : ws.ReadAddonsFile svc n with
    | error e =>
      rw [hr] at h
      simp only [Except.error.injEq] at h
      exact ⟨n, e, h.symm, List.mem_cons_self n ns, hr⟩
    | ok content =>
      rw [hr] at h
      simp only at h
      obtain ⟨f, e, he, hf, hread⟩ := ih _ _ h
      exact ⟨f, e, he, List.mem_cons_of_mem n hf, hread⟩

lemma contains_yaml_extensions (x : String) :
    contains [".yaml", ".yml"] x = (x == ".yaml" || x == ".yml") := by
  by_cases h1 : x = ".yaml"
  · subst h1; decide
  · by_cases h2 : x = ".yml"
    · subst h2; decide
    · have e1 : (".yaml" == x) = false := beq_eq_false_iff_ne.mpr (Ne.symm h1)
      have e2 : (".yml" == x) = false := beq_eq_false_iff_ne.mpr (Ne.symm h2)
      have e3 : (x == ".yaml") = false := beq_eq_false_iff_ne.mpr h1
      have e4 : (x == ".yml") = false := beq_eq_false_iff_ne.mpr h2
      simp [contains, e1, e2, e3, e4]

/-! ### The claims. -/

/-- C2: aggregation semantics — each Resources-classified file has its
trimmed content appended to the resources slot followed by a newline, in
listing order (two resource files with contents `A` and `B` yield `A\nB\n`),
while the parameters and outputs slots hold exactly the trimmed content of
the last-seen file classified into each category; the read-and-fold loop of
`Template` computes exactly this fold when every read succeeds. -/
theorem aggregation_accumulates_resources_and_overwrites_slots :
    (∀ (read : String → String) (ns : List String) (m : AddonFiles),
      (foldAddons read ns m).resources = m.resources ++ specResourcesBlock read ns ∧
      (foldAddons read ns m).params = specLastSlot read classifiesAsParams ns m.params ∧
      (foldAddons read ns m).outputs = specLastSlot read classifiesAsOutputs ns m.outputs) ∧
    (∀ (svc : String) (L : List String) (read : String → String)
        (ns : List String) (m : AddonFiles),
      aggregate (listingWS L read) svc ns m = .ok (foldAddons read ns m)) ∧
    (foldAddons (fun n => if n == "a.yaml" then "A" else "B") ["a.yaml", "b.yaml"]
        emptyAddonFiles).resources = "A\nB\n" ∧
    (foldAddons (fun _ => "  P1:\n  t  ") ["params.yaml"] emptyAddonFiles).params =
      "P1:\n  t" := by
  refine ⟨fun read ns m => ⟨foldAddons_resources read ns m, foldAddons_params read ns m,
    foldAddons_outputs read ns m⟩, fun svc L read ns m => aggregate_listingWS svc L read ns m,
    by decide, by decide⟩

/-- C3: the classifier retains exactly the subsequence of filenames whose
extension is exactly `.yaml` or `.yml` (case-sensitive), preserving order;
every other file is silently discarded (the result is a sublist of the
input, and the filtering predicate is exactly extension membership). -/
theorem filterYAMLfiles_keeps_exactly_yaml_extensions :
    (∀ files : List String,
      filterYAMLfiles files =
        files.filter (fun f => filepathExt f == ".yaml" || filepathExt f == ".yml")) ∧
    (∀ files : List String, (filterYAMLfiles files).Sublist files) ∧
    filterYAMLfiles
        ["template.json", "readme.md", "a.YAML", "b.Yml", "noext", "params.yaml", "vpc.yml"] =
      ["params.yaml", "vpc.yml"] := by
  refine ⟨fun files => ?_, fun files => List.filter_sublist files, by decide⟩
  exact List.filter_congr fun f _ => contains_yaml_extensions (filepathExt f)

/-- C4: category routing is exact — the base name obtained by stripping the
final extension routes `params` to the Parameters slot, `outputs` to the
Outputs slot, and anything else (including `Params.yaml` and
`params.txt.yaml`, whose base names differ from `params`) to the resources
accumulation, with no case folding. -/
theorem category_routing_is_exact :
    (∀ (m : AddonFiles) (fileName content : String),
      processFile m fileName content =
        if classifiesAsParams fileName then { m with params := trimSpace content }
        else if classifiesAsOutputs fileName then { m with outputs := trimSpace content }
        else { m with resources := m.resources ++ trimSpace content ++ "\n" }) ∧
    (∀ fileName : String,
      classifiesAsParams fileName = (baseName fileName == "params")) ∧
    (∀ fileName : String,
      classifiesAsOutputs fileName = (baseName fileName == "outputs")) ∧
    baseName "Params.yaml" = "Params" ∧
    baseName "params.txt.yaml" = "params.txt" ∧
    processFile emptyAddonFiles "Params.yaml" "X" =
      { emptyAddonFiles with resources := "X\n" } ∧
    processFile emptyAddonFiles "params.txt.yaml" "Y" =
      { emptyAddonFiles with resources := "Y\n" } ∧
    processFile emptyAddonFiles "params.yml" "Z" =
      { emptyAddonFiles with params := "Z" } ∧
    processFile emptyAddonFiles "outputs.yml" "W" =
      { emptyAddonFiles with outputs := "W" } := by
  refine ⟨fun m fileName content => ?_, fun _ => rfl, fun _ => rfl,
    by decide, by decide, by decide, by decide, by decide, by decide⟩
  by_cases hp : classifiesAsParams fileName = true
  · rw [processFile_of_params _ _ _ hp, if_pos hp]
  · have hp' := Bool.eq_false_iff.mpr hp
    rw [if_neg hp]
    by_cases ho : classifiesAsOutputs fileName = true
    · rw [processFile_of_outputs _ _ _ ho, if_pos ho]
    · have ho' := Bool.eq_false_iff.mpr ho
      rw [if_neg ho, processFile_of_resource _ _ _ (classifiesAsResource_of_neither _ hp' ho')]

/-- C6: when the directory listing fails, `Template` returns the
`ErrDirNotExist` error naming the service and wrapping the underlying
failure, for every possible file reader and renderer (so no read and no
render can influence the outcome), and that error is distinct from the
missing-files error. -/
theorem template_directory_not_found_propagation (svcName e : String)
    (readFileFn : String → String → Except String String)
    (parser : String → ParseArgs → Except String String) :
    Template { svcName := svcName, parser := parser,
               ws := { ReadAddonsDir := fun _ => .error e,
                       ReadAddonsFile := readFileFn } } =
      ("", some (.dirNotExist svcName e)) ∧
    ∀ l : List String, TemplateError.dirNotExist svcName e ≠ .missingAddonsFiles l := by
  exact ⟨rfl, fun l h => TemplateError.noConfusion h⟩

/-- C9: on every invocation, either the error result is nil or the returned
template text is exactly the empty string — a caller never observes partial
template text alongside an error. -/
theorem template_error_implies_empty_text (a : Addons) :
    (Template a).2 = none ∨ (Template a).1 = "" := by
  unfold Template
  repeat' split
  all_goals first
    | exact Or.inl rfl
    | exact Or.inr rfl

/-- C5: on the success path `Template` splits each trimmed aggregated block
into lines, hands the three line sequences plus the service name to the
render primitive at the fixed identifier `addons/cf.yml`, returns the
rendered text verbatim and propagates render failures unchanged; a resources
block `Bucket:\n  Type: AWS::S3::Bucket` splits into
`["Bucket:", "  Type: AWS::S3::Bucket"]`. -/
theorem template_render_adapter :
    (∀ (a : Addons) (fileNames : List String) (m : AddonFiles),
      a.ws.ReadAddonsDir a.svcName = .ok fileNames →
      aggregate a.ws a.svcName (filterYAMLfiles fileNames) emptyAddonFiles = .ok m →
      validateNoMissingFiles m = none →
      Template a =
        (match a.parser addonsTemplatePath (parseArgsOf a.svcName m) with
          | .error e => ("", some (.renderError e))
          | .ok content => (content, none))) ∧
    addonsTemplatePath = "addons/cf.yml" ∧
    splitLines (trimSpace "Bucket:\n  Type: AWS::S3::Bucket") =
      ["Bucket:", "  Type: AWS::S3::Bucket"] := by
  refine ⟨fun a fileNames m hdir hagg hval => ?_, rfl, by decide⟩
  unfold Template
  rw [hdir]
  simp only [hagg, hval]

/-- Witness for the render-adapter theorem: a concrete directory with a
params file, an outputs file and one resource file renders successfully
through a parser that returns a fixed text. -/
theorem template_render_adapter_witness :
    Template { svcName := "api", parser := okParser "RENDERED",
               ws := wsOfFiles [("params.yaml", "P1: v"), ("outputs.yaml", "O1: v"),
                                ("s3-bucket.yaml", "Bucket:\n  Type: AWS::S3::Bucket")] } =
      ("RENDERED", none) := by
  have h := template_render_adapter.1
    { svcName := "api", parser := okParser "RENDERED",
      ws := wsOfFiles [("params.yaml", "P1: v"), ("outputs.yaml", "O1: v"),
                       ("s3-bucket.yaml", "Bucket:\n  Type: AWS::S3::Bucket")] }
    ["params.yaml", "outputs.yaml", "s3-bucket.yaml"]
    { params := "P1: v", outputs := "O1: v",
      resources := "Bucket:\n  Type: AWS::S3::Bucket\n" }
    rfl rfl rfl
  exact h

/-- C7: a failing read of any classified file aborts the whole composition:
`Template` returns the empty text with exactly the aggregation error, for
every possible renderer (so no validation or rendering runs), and that error
is a read error carrying the failing file name and the service name. -/
theorem template_read_failure_fail_fast (svcName : String) (ws : Workspace)
    (fileNames : List String) (er : TemplateError)
    (hdir : ws.ReadAddonsDir svcName = .ok fileNames)
    (hagg : aggregate ws svcName (filterYAMLfiles fileNames) emptyAddonFiles = .error er) :
    (∀ parser, Template { svcName := svcName, parser := parser, ws := ws } =
      ("", some er)) ∧
    ∃ f e, er = .readError f svcName e ∧ f ∈ filterYAMLfiles fileNames ∧
      ws.ReadAddonsFile svcName f = .error e := by
  constructor
  · intro parser
    unfold Template
    rw [hdir]
    simp only [hagg]
  · exact aggregate_error_shape ws svcName _ _ _ hagg

/-- Witness for the fail-fast theorem: a one-file directory whose read fails
with `boom` makes `Template` return exactly the wrapped read error. -/
theorem template_read_failure_fail_fast_witness :
    Template { svcName := "api", parser := okParser "IGNORED",
               ws := { ReadAddonsDir := fun _ => .ok ["bad.yaml"],
                       ReadAddonsFile := fun _ _ => .error "boom" } } =
      ("", some (.readError "bad.yaml" "api" "boom")) := by
  have h := template_read_failure_fail_fast "api"
    { ReadAddonsDir := fun _ => .ok ["bad.yaml"],
      ReadAddonsFile := fun _ _ => .error "boom" }
    ["bad.yaml"] (.readError "bad.yaml" "api" "boom") rfl rfl
  exact h.1 (okParser "IGNORED")

/-- C8: `Template` is a deterministic function of the service name, the
directory listing and the file contents: two service objects whose
collaborators agree pointwise (same listings, same file contents, same
renderer behaviour) produce identical output — same text and same error. -/
theorem template_deterministic (svcName : String)
    (parser1 parser2 : String → ParseArgs → Except String String)
    (ws1 ws2 : Workspace)
    (hdir : ∀ s, ws1.ReadAddonsDir s = ws2.ReadAddonsDir s)
    (hfile : ∀ s n, ws1.ReadAddonsFile s n = ws2.ReadAddonsFile s n)
    (hparse : ∀ p args, parser1 p args = parser2 p args) :
    Template { svcName := svcName, parser := parser1, ws := ws1 } =
      Template { svcName := svcName, parser := parser2, ws := ws2 } := by
  have hws : ws1 = ws2 := by
    cases ws1 with
    | mk d1 f1 =>
      cases ws2 with
      | mk d2 f2 =>
        have h1 : d1 = d2 := funext hdir
        have h2 : f1 = f2 := funext fun s => funext fun n => hfile s n
        rw [h1, h2]
  have hp : parser1 = parser2 := funext fun p => funext fun args => hparse p args
  rw [hws, hp]

/-- Witness for the determinism theorem: two invocations over the same
concrete directory produce the same result. -/
theorem template_deterministic_witness :
    Template { svcName := "api", parser := okParser "T",
               ws := wsOfFiles [("params.yaml", "P"), ("outputs.yaml", "O"),
                                ("a.yaml", "A")] } =
      Template { svcName := "api", parser := fun p args => okParser "T" p args,
                 ws := wsOfFiles [("params.yaml", "P"), ("outputs.yaml", "O"),
                                  ("a.yaml", "A")] } := by
  exact template_deterministic "api" (okParser "T") (fun p args => okParser "T" p args)
    (wsOfFiles [("params.yaml", "P"), ("outputs.yaml", "O"), ("a.yaml", "A")])
    (wsOfFiles [("params.yaml", "P"), ("outputs.yaml", "O"), ("a.yaml", "A")])
    (fun _ => rfl) (fun _ _ => rfl) (fun _ _ => rfl)

lemma append_newline_append_ne_empty (s t : String) : s ++ "\n" ++ t ≠ "" := by
  intro h
  have hlen := congrArg String.length h
  rw [String.length_append, String.length_append] at hlen
  have h1 : ("\n" : String).length = 1 := rfl
  have h0 : ("" : String).length = 0 := rfl
  rw [h1, h0] at hlen
  omega

lemma specResourcesBlock_eq_empty_iff (read : String → String) (ns : List String) :
    specResourcesBlock read ns = "" ↔ ns.filter classifiesAsResource = [] := by
  cases hl : ns.filter classifiesAsResource with
  | nil => simp [specResourcesBlock, hl, concatAll]
  | cons x xs =>
    simp only [specResourcesBlock, hl, List.map_cons, concatAll]
    constructor
    · intro h
      exact absurd h (append_newline_append_ne_empty _ _)
    · intro h
      simp at h

/-- C10: the resources-missing branch of validation fires exactly when zero
YAML files were classified as Resources — the resources slot of the fold
from the empty accumulator is empty iff no file classified as Resources —
because every resource file contributes a trailing newline; concretely, a
resource file whose content is entirely whitespace leaves the slot equal to
`"\n"`, which trims to nothing yet passes the completeness check, since the
slot is tested for emptiness without a final trim. -/
theorem resources_check_fires_iff_no_resource_files :
    (∀ (read : String → String) (ns : List String),
      ((foldAddons read ns emptyAddonFiles).resources = "" ↔
        ns.filter classifiesAsResource = [])) ∧
    (∀ m : AddonFiles,
      (resourcesRequirement ∈ missingFilesOf m ↔ m.resources = "")) ∧
    (foldAddons
        (fun n => if n == "params.yaml" then "PARAMS"
                  else if n == "outputs.yaml" then "OUTPUTS" else "   ")
        ["params.yaml", "outputs.yaml", "blank.yaml"] emptyAddonFiles).resources = "\n" ∧
    trimSpace "\n" = "" ∧
    validateNoMissingFiles
      (foldAddons
        (fun n => if n == "params.yaml" then "PARAMS"
                  else if n == "outputs.yaml" then "OUTPUTS" else "   ")
        ["params.yaml", "outputs.yaml", "blank.yaml"] emptyAddonFiles) = none ∧
    Template { svcName := "job", parser := okParser "T",
               ws := wsOfFiles [("params.yaml", "PARAMS"), ("outputs.yaml", "OUTPUTS"),
                                ("blank.yaml", "   ")] } = ("T", none) := by
  refine ⟨fun read ns => ?_, fun m => ?_, by decide, by decide, rfl, rfl⟩
  · rw [foldAddons_resources]
    show "" ++ specResourcesBlock read ns = "" ↔ _
    rw [String.empty_append]
    exact specResourcesBlock_eq_empty_iff read ns
  · by_cases hr : m.resources = "" <;>
      simp [missingFilesOf, resourcesRequirement, hr]

/-- C1 (counterexample): a directory with `params.yaml` and `outputs.yaml`
present and a single resource file whose content is entirely whitespace: the
resources category is empty after trimming, yet `Template` renders
successfully with no missing-files error and a non-empty rendered text —
contrary to the claim that an empty-after-trimming category always yields a
`MissingAddonsFiles` error and no rendered template. -/
theorem whitespace_resource_not_reported_missing :
    trimSpace (foldAddons
        (fun n => if n == "params.yaml" then "P"
                  else if n == "outputs.yaml" then "O" else " \t")
        ["params.yaml", "outputs.yaml", "extra.yaml"] emptyAddonFiles).resources = "" ∧
    Template { svcName := "web", parser := okParser "RENDERED",
               ws := wsOfFiles [("params.yaml", "P"), ("outputs.yaml", "O"),
                                ("extra.yaml", " \t")] } = ("RENDERED", none) := by
  exact ⟨by decide, rfl⟩

/-- C1 (amended): `Template` requires the three category slots non-empty as
stored (parameters and outputs hold already-trimmed content; the resources
slot is tested without a final trim); the missing-files list enumerates
exactly the empty categories — `params.yaml` iff Parameters is empty,
`outputs.yaml` iff Outputs is empty, the generic resource requirement iff
Resources is empty — validation succeeds iff the list is empty, an empty
directory listing is reported with all three entries, and a listing with
only a resource file with `params.yaml` and `outputs.yaml` but not the
resources requirement. -/
theorem validator_enumerates_missing_categories :
    (∀ m : AddonFiles,
      ("params.yaml" ∈ missingFilesOf m ↔ m.params = "") ∧
      ("outputs.yaml" ∈ missingFilesOf m ↔ m.outputs = "") ∧
      (resourcesRequirement ∈ missingFilesOf m ↔ m.resources = "") ∧
      (validateNoMissingFiles m = none ↔ missingFilesOf m = []) ∧
      (validateNoMissingFiles m = none ↔
        m.params ≠ "" ∧ m.outputs ≠ "" ∧ m.resources ≠ "") ∧
      (missingFilesOf m ≠ [] →
        validateNoMissingFiles m = some (.missingAddonsFiles (missingFilesOf m)))) ∧
    Template { svcName := "api", parser := okParser "T", ws := wsOfFiles [] } =
      ("", some (.missingAddonsFiles
        ["params.yaml", "outputs.yaml", resourcesRequirement])) ∧
    Template { svcName := "api", parser := okParser "T",
               ws := wsOfFiles [("s3-bucket.yaml", "Bucket")] } =
      ("", some (.missingAddonsFiles ["params.yaml", "outputs.yaml"])) := by
  refine ⟨fun m => ?_, rfl, rfl⟩
  by_cases hp : m.params = "" <;> by_cases ho : m.outputs = "" <;>
    by_cases hr : m.resources = "" <;>
      simp [missingFilesOf, validateNoMissingFiles, resourcesRequirement, hp, ho, hr]

/-- Witness for the amended validator theorem: at a fully missing
accumulator every enumeration fact holds concretely, and the non-empty
missing list forces the enumerated error. -/
theorem validator_enumerates_missing_categories_witness :
    validateNoMissingFiles emptyAddonFiles =
      some (.missingAddonsFiles ["params.yaml", "outputs.yaml", resourcesRequirement]) := by
  have h := (validator_enumerates_missing_categories.1 emptyAddonFiles).2.2.2.2.2
  have hne : missingFilesOf emptyAddonFiles ≠ [] := by decide
  have := h hne
  rw [this]
  rfl

/-- Witness for the directory-not-found theorem at a concrete service and
failure, with a reader and renderer that would succeed if consulted. -/
theorem template_directory_not_found_propagation_witness :
    Template { svcName := "frontend", parser := okParser "T",
               ws := { ReadAddonsDir := fun _ => .error "missing dir",
                       ReadAddonsFile := fun _ _ => .ok "ignored" } } =
      ("", some (.dirNotExist "frontend" "missing dir")) := by
  exact (template_directory_not_found_propagation "frontend" "missing dir"
    (fun _ _ => .ok "ignored") (okParser "T")).1
